import Mathlib

/-!
Verification of the flow-log analyzer (`src/flow_log_analyzer.py`).

The program is a single-pass batch pipeline: load a lookup table CSV into a
dict keyed by (lowercased port, lowercased protocol), stream a flow log line
by line while updating two insertion-ordered count dicts, then write a fixed
text report.  We embed the pipeline shallowly: Python dicts (which preserve
insertion order and overwrite in place) become association lists with an
in-place-overwrite `dictSet`; Python `int()` becomes the partial `pyInt?`;
Python truthiness of the looked-up tag becomes `pyTruthy`; exceptions become
`Except PyError`.
-/

set_option autoImplicit false

namespace FlowLog

universe u v

variable {α : Type u} {β : Type v}

/-- Python `d.get(k)`: the value stored at `k`, if present.  With unique keys
maintained by `dictSet` the first match is the only match. -/
def dictGet [DecidableEq α] (d : List (α × β)) (k : α) : Option β :=
  match d with
  | [] => none
  | (k', v) :: rest => if k' = k then some v else dictGet rest k

/-- Python `d.get(k, default)`. -/
def dictGetD [DecidableEq α] (d : List (α × β)) (k : α) (dflt : β) : β :=
  (dictGet d k).getD dflt

/-- Python `d[k] = v` on an insertion-ordered dict: overwrite in place when
the key exists, otherwise append the new binding at the end. -/
def dictSet [DecidableEq α] (d : List (α × β)) (k : α) (v : β) : List (α × β) :=
  match d with
  | [] => [(k, v)]
  | (k', v') :: rest => if k' = k then (k, v) :: rest else (k', v') :: dictSet rest k v

/-- The keys of a dict, in insertion order (Python `list(d.keys())`). -/
def keysOf (d : List (α × β)) : List α :=
  d.map Prod.fst

/-- The dict has no duplicate keys (an invariant of genuine Python dicts,
preserved by `dictSet`). -/
def nodupKeys (d : List (α × β)) : Prop :=
  (keysOf d).Nodup

/-- Python `s.lower()` (structural, so that concrete runs evaluate in the
kernel). -/
def pyLower (s : String) : String :=
  String.mk (s.data.map Char.toLower)

/-- Splitting accumulator: walk the characters, `cur` holds the reversed
current word. -/
def pySplitAux : List Char → List Char → List String
  | [], cur => if cur = [] then [] else [String.mk cur.reverse]
  | c :: rest, cur =>
    if c.isWhitespace then
      if cur = [] then pySplitAux rest []
      else String.mk cur.reverse :: pySplitAux rest []
    else pySplitAux rest (c :: cur)

/-- Python `line.strip().split()`: split on runs of whitespace, dropping
empty pieces. -/
def pySplit (line : String) : List String :=
  pySplitAux line.data []

/-- Value of a nonempty all-digit character list, else `none`. -/
def digitsVal? (cs : List Char) : Option Nat :=
  match cs with
  | [] => none
  | _ =>
    cs.foldl
      (fun acc c =>
        match acc with
        | none => none
        | some n => if c.isDigit then some (10 * n + (c.toNat - 48)) else none)
      (some 0)

/-- Python `s.strip()` over characters. -/
def pyStrip (cs : List Char) : List Char :=
  ((cs.dropWhile Char.isWhitespace).reverse.dropWhile Char.isWhitespace).reverse

/-- ASCII model of Python `int(s)`: optional surrounding whitespace, an
optional sign, then one or more decimal digits; anything else raises
`ValueError` (here: `none`). -/
def pyInt? (s : String) : Option Int :=
  match pyStrip s.data with
  | '-' :: rest => (digitsVal? rest).map (fun n => -(n : Int))
  | '+' :: rest => (digitsVal? rest).map (fun n => (n : Int))
  | cs => (digitsVal? cs).map (fun n => (n : Int))

/-- Python truthiness of `tag = lookup_table.get(key)`: `None` and the empty
string are falsy. -/
def pyTruthy (t : Option String) : Bool :=
  match t with
  | none => false
  | some s => s ≠ ""

/-- The tag actually counted: the looked-up tag when truthy, otherwise the
sentinel (`tag if tag else 'Untagged'`). -/
def resolvedTag (t : Option String) : String :=
  match t with
  | none => "Untagged"
  | some s => if s = "" then "Untagged" else s

/-- The Python exceptions that can cross the layers we model. -/
inductive PyError where
  | fileNotFound
  | permissionDenied
  | csvError
  | stopIteration
  | valueError
deriving DecidableEq

/-- Exceptions caught (and re-raised) by `load_lookup_table`'s `except`
clauses: `FileNotFoundError`, `PermissionError`, `csv.Error`. -/
def loaderCatches : PyError → Bool
  | .fileNotFound => true
  | .permissionDenied => true
  | .csvError => true
  | _ => false

/-- Exceptions caught (and re-raised) by `process_flow_logs`'s `except`
clauses: `FileNotFoundError`, `PermissionError`. -/
def processorCatches : PyError → Bool
  | .fileNotFound => true
  | .permissionDenied => true
  | _ => false

/-- The spec's fatal-error taxonomy (§7): `NotFound`, `PermissionDenied`,
`MalformedInput` (structural CSV error). -/
def inTaxonomy : PyError → Bool
  | .fileNotFound => true
  | .permissionDenied => true
  | .csvError => true
  | _ => false

/-- `FlowLogAnalyzer.PROTOCOL_MAP = {6: 'tcp', 17: 'udp', 1: 'icmp'}` with
Python `.get`. -/
def PROTOCOL_MAP (n : Int) : Option String :=
  if n = 6 then some "tcp"
  else if n = 17 then some "udp"
  else if n = 1 then some "icmp"
  else none

/-- The analyzer's mutable fields: `lookup_table`, `tag_counts`,
`port_protocol_counts` (all empty after `__init__`). -/
structure AnalyzerState where
  lookup_table : List ((String × String) × String)
  tag_counts : List (String × Nat)
  port_protocol_counts : List ((String × String) × Nat)
deriving DecidableEq

/-- The fresh state built by `FlowLogAnalyzer.__init__`. -/
def initState : AnalyzerState :=
  { lookup_table := [], tag_counts := [], port_protocol_counts := [] }

/-- The loader's `for row in reader:` loop body: rows with exactly three
fields are entered as `lookup_table[(dstport.lower(), protocol.lower())] =
tag`; all other rows are skipped. -/
def loadRows (lt : List ((String × String) × String)) (rows : List (List String)) :
    List ((String × String) × String) :=
  match rows with
  | [] => lt
  | row :: rest =>
    match row with
    | [dstport, protocol, tag] => loadRows (dictSet lt (pyLower dstport, pyLower protocol) tag) rest
    | _ => loadRows lt rest

/-- `FlowLogAnalyzer.load_lookup_table`, over the CSV rows of the file:
`next(reader)` skips the header unconditionally and raises `StopIteration`
on a file with zero rows; then the row loop runs `loadRows` starting from the
current `lookup_table`. -/
def load_lookup_table (lt : List ((String × String) × String)) (rows : List (List String)) :
    Except PyError (List ((String × String) × String)) :=
  match rows with
  | [] => .error .stopIteration
  | _header :: dataRows => .ok (loadRows lt dataRows)

/-- Outcome of `_process_line` on one line: `skipped` (returned `None`),
`fatal` (uncaught `ValueError` from `int(fields[7])`), or `counted` with the
returned `(dstport, protocol, tag)` triple. -/
inductive LineResult where
  | skipped
  | fatal
  | counted (dstport protocol tag : String)
deriving DecidableEq

/-- `FlowLogAnalyzer._process_line`.  Mirrors the source: split on
whitespace; reject when fewer than 14 fields or `fields[-2] != 'ACCEPT'` or
`fields[-1] != 'OK'`; parse `int(fields[7])` (fatal on failure); resolve the
protocol name via `PROTOCOL_MAP` with fallback to the raw lowercased field;
look the key up; bump both count dicts. -/
def process_line (st : AnalyzerState) (line : String) : LineResult × AnalyzerState :=
  let fields := pySplit line
  if fields.length < 14 ∨ fields.getD (fields.length - 2) "" ≠ "ACCEPT" ∨
      fields.getD (fields.length - 1) "" ≠ "OK" then
    (.skipped, st)
  else
    let dstport := fields.getD 6 ""
    match pyInt? (fields.getD 7 "") with
    | none => (.fatal, st)
    | some n =>
      let protocol :=
        match PROTOCOL_MAP n with
        | none => pyLower (fields.getD 7 "")
        | some p => pyLower p
      let key := (dstport, protocol)
      let tag := dictGet st.lookup_table key
      let newPpc := dictSet st.port_protocol_counts key (dictGetD st.port_protocol_counts key 0 + 1)
      let newTc :=
        if pyTruthy tag then
          dictSet st.tag_counts (resolvedTag tag) (dictGetD st.tag_counts (resolvedTag tag) 0 + 1)
        else
          dictSet st.tag_counts "Untagged" (dictGetD st.tag_counts "Untagged" 0 + 1)
      (.counted dstport protocol (resolvedTag tag),
       { st with port_protocol_counts := newPpc, tag_counts := newTc })

/-- `FlowLogAnalyzer.process_flow_logs`, over the lines of the log file:
process each line in order, counting the lines whose result is not `None`;
an uncaught `ValueError` from `_process_line` aborts the loop (the `except`
clauses catch only file errors). -/
def process_flow_logs (st : AnalyzerState) (lines : List String) :
    Except PyError (Nat × AnalyzerState) :=
  match lines with
  | [] => .ok (0, st)
  | line :: rest =>
    match process_line st line with
    | (.fatal, _) => .error .valueError
    | (.skipped, st') => process_flow_logs st' rest
    | (.counted _ _ _, st') =>
      match process_flow_logs st' rest with
      | .error e => .error e
      | .ok (n, st'') => .ok (n + 1, st'')

/-- Concatenation of a list of written pieces, in write order. -/
def concatAll : List String → String
  | [] => ""
  | s :: rest => s ++ concatAll rest

/-- `FlowLogAnalyzer.write_output`: the exact text written to the output
file, one `f.write` at a time. -/
def write_output (tag_counts : List (String × Nat))
    (port_protocol_counts : List ((String × String) × Nat)) : String :=
  "Tag Counts:\n" ++ "Tag,Count\n" ++
    concatAll (tag_counts.map (fun p => p.1 ++ "," ++ toString p.2 ++ "\n")) ++
    "\nPort/Protocol Combination Counts:\n" ++ "Port,Protocol,Count\n" ++
    concatAll (port_protocol_counts.map
      (fun p => p.1.1 ++ "," ++ p.1.2 ++ "," ++ toString p.2 ++ "\n"))

/-- `FlowLogAnalyzer.run_analysis` from a fresh analyzer: load the lookup
table, process the flow log, write the output; any raised exception
propagates. -/
def run_analysis (lookupRows : List (List String)) (logLines : List String) :
    Except PyError String :=
  match load_lookup_table initState.lookup_table lookupRows with
  | .error e => .error e
  | .ok table =>
    match process_flow_logs { initState with lookup_table := table } logLines with
    | .error e => .error e
    | .ok (_, st) => .ok (write_output st.tag_counts st.port_protocol_counts)

/-- `main`: `except Exception` turns any raised error into `sys.exit(1)`;
success exits 0. -/
def mainExitCode (lookupRows : List (List String)) (logLines : List String) : Nat :=
  match run_analysis lookupRows logLines with
  | .error _ => 1
  | .ok _ => 0

/-! ## Dictionary lemmas -/

theorem dictGet_dictSet [DecidableEq α] (d : List (α × β)) (k k' : α) (v : β) :
    dictGet (dictSet d k v) k' = if k' = k then some v else dictGet d k' := by
  induction d with
  | nil =>
    simp only [dictSet, dictGet]
    by_cases h : k' = k
    · subst h; simp
    · rw [if_neg (fun hh => h hh.symm), if_neg h]
  | cons hd tl ih =>
    obtain ⟨a, b⟩ := hd
    by_cases hak : a = k
    · subst hak
      simp only [dictSet, if_pos rfl, dictGet]
      by_cases h : a = k'
      · subst h; simp
      · rw [if_neg h, if_neg (fun hh => h hh.symm), if_neg h]
    · simp only [dictSet, if_neg hak, dictGet]
      by_cases h : a = k'
      · subst h
        rw [if_pos rfl, if_neg (fun hh : a = k => hak hh), if_pos rfl]
      · rw [if_neg h, ih, if_neg h]

theorem dictGet_eq_none_of_not_mem [DecidableEq α] (d : List (α × β)) (k : α)
    (h : k ∉ keysOf d) : dictGet d k = none := by
  induction d with
  | nil => simp [dictGet]
  | cons hd tl ih =>
    obtain ⟨a, b⟩ := hd
    simp only [keysOf, List.map_cons, List.mem_cons] at h
    push_neg at h
    simp [dictGet, Ne.symm h.1, ih (by simpa [keysOf] using h.2)]

/-- Keys grow by first insertion: setting an existing key keeps the key list,
setting a new key appends it. -/
def insertNew [DecidableEq α] (ks : List α) (k : α) : List α :=
  if k ∈ ks then ks else ks ++ [k]

theorem keysOf_dictSet [DecidableEq α] (d : List (α × β)) (k : α) (v : β) :
    keysOf (dictSet d k v) = insertNew (keysOf d) k := by
  induction d with
  | nil => simp [dictSet, keysOf, insertNew]
  | cons hd tl ih =>
    obtain ⟨a, b⟩ := hd
    by_cases hak : a = k
    · subst hak; simp [dictSet, keysOf, insertNew]
    · simp only [dictSet, if_neg hak, keysOf, List.map_cons] at ih ⊢
      rw [ih]
      unfold insertNew
      simp only [keysOf] at *
      by_cases hmem : k ∈ List.map Prod.fst tl
      · rw [if_pos hmem, if_pos (List.mem_cons_of_mem a hmem)]
      · rw [if_neg hmem,
          if_neg (by simp only [List.mem_cons]; rintro (h | h); exact hak h.symm; exact hmem h),
          List.cons_append]

theorem nodupKeys_dictSet [DecidableEq α] (d : List (α × β)) (k : α) (v : β)
    (h : nodupKeys d) : nodupKeys (dictSet d k v) := by
  unfold nodupKeys at h ⊢
  rw [keysOf_dictSet]
  unfold insertNew
  by_cases hmem : k ∈ keysOf d
  · rw [if_pos hmem]; exact h
  · rw [if_neg hmem, List.nodup_append]
    refine ⟨h, List.nodup_singleton k, ?_⟩
    intro x hx hxk
    simp only [List.mem_singleton] at hxk
    subst hxk
    exact hmem hx

/-- Two dicts with no duplicate keys, the same key list, and the same lookup
function are equal as lists. -/
theorem dict_ext [DecidableEq α] (d₁ : List (α × β)) : ∀ (d₂ : List (α × β)),
    nodupKeys d₁ → nodupKeys d₂ → keysOf d₁ = keysOf d₂ →
    (∀ k, dictGet d₁ k = dictGet d₂ k) → d₁ = d₂ := by
  induction d₁ with
  | nil =>
    intro d₂ _ _ hk _
    cases d₂ with
    | nil => rfl
    | cons hd tl => simp [keysOf] at hk
  | cons hd tl ih =>
    intro d₂ h₁ h₂ hk hg
    obtain ⟨a, b⟩ := hd
    cases d₂ with
    | nil => simp [keysOf] at hk
    | cons hd₂ tl₂ =>
      obtain ⟨a₂, b₂⟩ := hd₂
      simp only [keysOf, List.map_cons, List.cons.injEq] at hk
      obtain ⟨rfl, hktl⟩ := hk
      have hb : b = b₂ := by
        have := hg a
        simpa [dictGet] using this
      subst hb
      have h₁' := List.nodup_cons.mp (show (a :: keysOf tl).Nodup from h₁)
      have h₂' := List.nodup_cons.mp (show (a :: keysOf tl₂).Nodup from h₂)
      have htl : tl = tl₂ := by
        refine ih tl₂ h₁'.2 h₂'.2 hktl ?_
        intro k
        by_cases hka : k = a
        · subst hka
          rw [dictGet_eq_none_of_not_mem tl k h₁'.1,
            dictGet_eq_none_of_not_mem tl₂ k h₂'.1]
        · have hgk := hg k
          simp only [dictGet] at hgk
          rw [if_neg (fun hh : a = k => hka hh.symm)] at hgk
          rw [if_neg (fun hh : a = k => hka hh.symm)] at hgk
          exact hgk
      rw [htl]

/-! ## Sum lemmas for the count dicts -/

/-- Python `sum(d.values())`. -/
def sumVals (d : List (α × Nat)) : Nat :=
  (d.map Prod.snd).sum

theorem sumVals_dictSet_bump [DecidableEq α] (d : List (α × Nat)) (k : α) :
    sumVals (dictSet d k (dictGetD d k 0 + 1)) = sumVals d + 1 := by
  induction d with
  | nil => simp [sumVals, dictSet, dictGetD, dictGet]
  | cons hd tl ih =>
    obtain ⟨a, v⟩ := hd
    by_cases hak : a = k
    · subst hak
      have h1 : dictGetD ((a, v) :: tl) a 0 = v := by simp [dictGetD, dictGet]
      have h2 : dictSet ((a, v) :: tl) a (v + 1) = (a, v + 1) :: tl := by simp [dictSet]
      rw [h1, h2]
      simp only [sumVals, List.map_cons, List.sum_cons]
      omega
    · have hget : dictGetD ((a, v) :: tl) k 0 = dictGetD tl k 0 := by
        simp [dictGetD, dictGet, hak]
      rw [hget]
      simp only [dictSet, if_neg hak, sumVals, List.map_cons, List.sum_cons] at ih ⊢
      omega

/-! ## Structure of `_process_line` -/

theorem resolvedTag_of_not_truthy (t : Option String) (h : pyTruthy t = false) :
    resolvedTag t = "Untagged" := by
  cases t with
  | none => rfl
  | some s =>
    have hs : s = "" := by
      by_contra hne
      simp [pyTruthy, hne] at h
    simp [resolvedTag, hs]

theorem process_line_not_counted (st : AnalyzerState) (line : String) (r : LineResult)
    (st' : AnalyzerState) (h : process_line st line = (r, st'))
    (hr : ∀ p pr t, r ≠ .counted p pr t) : st' = st := by
  simp only [process_line] at h
  split at h
  · exact (Prod.mk.injEq _ _ _ _ ▸ h).symm.1 ▸ rfl
  · split at h
    · exact (Prod.mk.injEq _ _ _ _ ▸ h).symm.1 ▸ rfl
    · exact absurd ((Prod.mk.injEq _ _ _ _ ▸ h).1.symm) (by simpa using hr _ _ _)

theorem process_line_counted (st : AnalyzerState) (line : String) (p pr t : String)
    (st' : AnalyzerState) (h : process_line st line = (.counted p pr t, st')) :
    st'.lookup_table = st.lookup_table ∧
    st'.tag_counts = dictSet st.tag_counts t (dictGetD st.tag_counts t 0 + 1) ∧
    st'.port_protocol_counts =
      dictSet st.port_protocol_counts (p, pr) (dictGetD st.port_protocol_counts (p, pr) 0 + 1) := by
  simp only [process_line] at h
  split at h
  · simp at h
  · split at h
    · simp at h
    · rw [Prod.mk.injEq] at h
      obtain ⟨hres, hst⟩ := h
      rw [LineResult.counted.injEq] at hres
      obtain ⟨hp, hpr, ht⟩ := hres
      subst hp; subst hpr; subst ht
      subst hst
      refine ⟨rfl, ?_, rfl⟩
      split
      · rfl
      · rename_i htr
        rw [resolvedTag_of_not_truthy _ (by simpa using htr)]

/-! ## The sum invariant over a run -/

theorem process_flow_logs_sums (lines : List String) : ∀ (st : AnalyzerState) (n : Nat)
    (st' : AnalyzerState), process_flow_logs st lines = .ok (n, st') →
    sumVals st'.tag_counts = sumVals st.tag_counts + n ∧
    sumVals st'.port_protocol_counts = sumVals st.port_protocol_counts + n := by
  induction lines with
  | nil =>
    intro st n st' h
    simp only [process_flow_logs, Except.ok.injEq, Prod.mk.injEq] at h
    obtain ⟨rfl, rfl⟩ := h
    simp
  | cons line rest ih =>
    intro st n st' h
    simp only [process_flow_logs] at h
    split at h
    · simp at h
    · rename_i st1 hpl
      have hst1 : st1 = st :=
        process_line_not_counted st line _ st1 hpl (fun p pr t hcon => nomatch hcon)
      rw [hst1] at h
      exact ih st n st' h
    · rename_i p pr t st1 hpl
      split at h
      · simp at h
      · rename_i m st2 hrest
        simp only [Except.ok.injEq, Prod.mk.injEq] at h
        obtain ⟨hn, hst⟩ := h
        obtain ⟨hlt, htc, hpc⟩ := process_line_counted st line p pr t st1 hpl
        have hs := ih st1 m st2 hrest
        rw [htc, hpc] at hs
        rw [sumVals_dictSet_bump, sumVals_dictSet_bump] at hs
        rw [← hst]
        omega

/-- C1: after a completed run over any flow log and lookup table, the sum of
`tag_counts` values, the sum of `port_protocol_counts` values, and the number
of lines that passed the acceptance filter are all equal: each accepted,
well-formed line increments exactly one entry in each aggregate. -/
theorem c1_sum_invariant (st : AnalyzerState) (lines : List String) (n : Nat)
    (st' : AnalyzerState) (htc : st.tag_counts = [])
    (hpc : st.port_protocol_counts = [])
    (h : process_flow_logs st lines = .ok (n, st')) :
    sumVals st'.tag_counts = n ∧ sumVals st'.port_protocol_counts = n := by
  have hs := process_flow_logs_sums lines st n st' h
  rw [htc, hpc] at hs
  simpa [sumVals] using hs

/-- Witness for C1: a concrete two-line run (one accepted line, one rejected
line) in which both aggregate sums equal the accepted-line count 1. -/
theorem c1_sum_invariant_witness :
    sumVals (AnalyzerState.tag_counts
        { lookup_table := [(("80", "tcp"), "web")], tag_counts := [("web", 1)],
          port_protocol_counts := [(("80", "tcp"), 1)] }) = 1 ∧
    sumVals (AnalyzerState.port_protocol_counts
        { lookup_table := [(("80", "tcp"), "web")], tag_counts := [("web", 1)],
          port_protocol_counts := [(("80", "tcp"), 1)] }) = 1 :=
  c1_sum_invariant { initState with lookup_table := [(("80", "tcp"), "web")] }
    ["a b c d e f 80 6 g h i j ACCEPT OK", "short line"] 1
    { lookup_table := [(("80", "tcp"), "web")], tag_counts := [("web", 1)],
      port_protocol_counts := [(("80", "tcp"), 1)] } rfl rfl rfl

/-! ## Loader lemmas -/

/-- First-some choice on options (last-seen-wins reads right to left through
the recursion). -/
def oOrElse {γ : Type v} (a b : Option γ) : Option γ :=
  match a with
  | some x => some x
  | none => b

theorem oOrElse_none_right {γ : Type v} (a : Option γ) : oOrElse a none = a := by
  cases a <;> rfl

/-- The lookup key a row would contribute: only rows with exactly three
fields contribute, with port and protocol lowercased. -/
def rowKey1 (row : List String) : Option (String × String) :=
  match row with
  | [dstport, protocol, _] => some (pyLower dstport, pyLower protocol)
  | _ => none

/-- All lookup keys contributed by the rows, in file order. -/
def rowKeys (rows : List (List String)) : List (String × String) :=
  rows.filterMap rowKey1

/-- The tag a single row stores at key `k`, if any. -/
def rowTag (row : List String) (k : String × String) : Option String :=
  match row with
  | [dstport, protocol, tag] =>
    if (pyLower dstport, pyLower protocol) = k then some tag else none
  | _ => none

/-- The tag of the last three-field row carrying key `k` (the spec's
"last-seen-wins" value), if any. -/
def lastTagInFileOrder (rows : List (List String)) (k : String × String) : Option String :=
  match rows with
  | [] => none
  | row :: rest => oOrElse (lastTagInFileOrder rest k) (rowTag row k)

/-- One step of the loader loop. -/
def loadRow1 (lt : List ((String × String) × String)) (row : List String) :
    List ((String × String) × String) :=
  match row with
  | [dstport, protocol, tag] => dictSet lt (pyLower dstport, pyLower protocol) tag
  | _ => lt

theorem loadRows_cons (lt : List ((String × String) × String)) (row : List String)
    (rest : List (List String)) :
    loadRows lt (row :: rest) = loadRows (loadRow1 lt row) rest := by
  rcases row with _ | ⟨a, _ | ⟨b, _ | ⟨c, _ | ⟨d, tl⟩⟩⟩⟩ <;> rfl

theorem dictGet_loadRow1 (lt : List ((String × String) × String)) (row : List String)
    (k : String × String) :
    dictGet (loadRow1 lt row) k = oOrElse (rowTag row k) (dictGet lt k) := by
  rcases row with _ | ⟨a, _ | ⟨b, _ | ⟨c, _ | ⟨d, tl⟩⟩⟩⟩ <;>
    simp only [loadRow1, rowTag, oOrElse]
  rw [dictGet_dictSet]
  by_cases hk : (pyLower a, pyLower b) = k
  · rw [if_pos hk, if_pos hk.symm]
  · rw [if_neg hk, if_neg (fun hh => hk hh.symm)]

theorem dictGet_loadRows (rows : List (List String)) :
    ∀ (lt : List ((String × String) × String)) (k : String × String),
    dictGet (loadRows lt rows) k = oOrElse (lastTagInFileOrder rows k) (dictGet lt k) := by
  induction rows with
  | nil => intro lt k; simp [loadRows, lastTagInFileOrder, oOrElse]
  | cons row rest ih =>
    intro lt k
    rw [loadRows_cons, ih, dictGet_loadRow1]
    simp only [lastTagInFileOrder]
    cases lastTagInFileOrder rest k <;> rfl

theorem keysOf_loadRow1 (lt : List ((String × String) × String)) (row : List String) :
    keysOf (loadRow1 lt row) =
      match rowKey1 row with
      | some k => insertNew (keysOf lt) k
      | none => keysOf lt := by
  rcases row with _ | ⟨a, _ | ⟨b, _ | ⟨c, _ | ⟨d, tl⟩⟩⟩⟩ <;>
    simp only [loadRow1, rowKey1, keysOf_dictSet]

theorem mem_insertNew_of_mem [DecidableEq α] (ks : List α) (k k' : α) (h : k' ∈ ks) :
    k' ∈ insertNew ks k := by
  unfold insertNew
  split
  · exact h
  · exact List.mem_append_left _ h

theorem mem_insertNew_self [DecidableEq α] (ks : List α) (k : α) : k ∈ insertNew ks k := by
  unfold insertNew
  split
  · assumption
  · exact List.mem_append_right _ (List.mem_singleton.mpr rfl)

theorem mem_keysOf_loadRows (rows : List (List String)) :
    ∀ (lt : List ((String × String) × String)) (k : String × String),
    k ∈ keysOf lt → k ∈ keysOf (loadRows lt rows) := by
  induction rows with
  | nil => intro lt k h; exact h
  | cons row rest ih =>
    intro lt k h
    rw [loadRows_cons]
    refine ih _ k ?_
    rw [keysOf_loadRow1]
    cases rowKey1 row with
    | none => exact h
    | some k' => exact mem_insertNew_of_mem _ k' k h

theorem rowKeys_mem_keysOf_loadRows (rows : List (List String)) :
    ∀ (lt : List ((String × String) × String)) (k : String × String),
    k ∈ rowKeys rows → k ∈ keysOf (loadRows lt rows) := by
  induction rows with
  | nil => intro lt k h; simp [rowKeys] at h
  | cons row rest ih =>
    intro lt k h
    rw [loadRows_cons]
    rw [rowKeys, List.filterMap_cons] at h
    cases hrk : rowKey1 row with
    | none =>
      rw [hrk] at h
      exact ih _ k h
    | some k' =>
      rw [hrk] at h
      rcases List.mem_cons.mp h with rfl | hmem
      · refine mem_keysOf_loadRows rest _ k ?_
        rw [keysOf_loadRow1, hrk]
        exact mem_insertNew_self _ k
      · exact ih _ k hmem

theorem keysOf_loadRows_of_covered (rows : List (List String)) :
    ∀ (lt : List ((String × String) × String)),
    (∀ k, k ∈ rowKeys rows → k ∈ keysOf lt) → keysOf (loadRows lt rows) = keysOf lt := by
  induction rows with
  | nil => intro lt _; rfl
  | cons row rest ih =>
    intro lt hcov
    rw [loadRows_cons]
    have hk1 : keysOf (loadRow1 lt row) = keysOf lt := by
      rw [keysOf_loadRow1]
      cases hrk : rowKey1 row with
      | none => rfl
      | some k' =>
        have hmem : k' ∈ keysOf lt := by
          refine hcov k' ?_
          rw [rowKeys, List.filterMap_cons, hrk]
          exact List.mem_cons_self _ _
        show insertNew (keysOf lt) k' = keysOf lt
        unfold insertNew
        rw [if_pos hmem]
    rw [ih (loadRow1 lt row) (fun k hk => by
      rw [hk1]
      refine hcov k ?_
      rw [rowKeys, List.filterMap_cons]
      cases hrk : rowKey1 row
      · rwa [rowKeys] at hk
      · exact List.mem_cons_of_mem _ (by rwa [rowKeys] at hk)), hk1]

theorem nodupKeys_loadRows (rows : List (List String)) :
    ∀ (lt : List ((String × String) × String)), nodupKeys lt → nodupKeys (loadRows lt rows) := by
  induction rows with
  | nil => intro lt h; exact h
  | cons row rest ih =>
    intro lt h
    rw [loadRows_cons]
    refine ih _ ?_
    rcases row with _ | ⟨a, _ | ⟨b, _ | ⟨c, _ | ⟨d, tl⟩⟩⟩⟩ <;>
      first
        | exact h
        | exact nodupKeys_dictSet lt _ _ h

/-- C6: the loader skips every row whose comma-separated field count is not
exactly three without aborting the load (the load of any headed file always
succeeds, and filtering malformed rows out changes nothing), while every
row with exactly three fields is entered into the mapping (its key ends up
present). -/
theorem c6_loader_row_filter (lt : List ((String × String) × String)) (header : List String)
    (rows : List (List String)) :
    load_lookup_table lt (header :: rows) = .ok (loadRows lt rows) ∧
    loadRows lt (rows.filter fun r => r.length == 3) = loadRows lt rows ∧
    (∀ k, k ∈ rowKeys rows → k ∈ keysOf (loadRows lt rows)) := by
  refine ⟨rfl, ?_, fun k hk => rowKeys_mem_keysOf_loadRows rows lt k hk⟩
  induction rows generalizing lt with
  | nil => rfl
  | cons row rest ih =>
    rcases row with _ | ⟨a, _ | ⟨b, _ | ⟨c, _ | ⟨d, tl⟩⟩⟩⟩ <;>
      simp only [List.filter_cons, List.length_cons, List.length_nil] <;>
      norm_num <;>
      rw [loadRows_cons] <;>
      simp only [loadRow1] <;>
      exact ih _

/-- Witness for C6: in a table with a good row and a two-field row, the good
row's (lowercased) key is present in the loaded mapping. -/
theorem c6_loader_row_filter_witness :
    (("80", "tcp") : String × String) ∈
      keysOf (loadRows [] [["80", "TCP", "web"], ["bad", "row"]]) :=
  (c6_loader_row_filter [] ["dstport", "protocol", "tag"]
      [["80", "TCP", "web"], ["bad", "row"]]).2.2 ("80", "tcp") (by decide)

/-- C7: the mapping loaded from an initially empty table holds, at every key,
the tag of the last three-field row with that key in file order
(last-seen-wins), and the resulting mapping's keys are unique. -/
theorem c7_last_seen_wins (rows : List (List String)) (k : String × String) :
    dictGet (loadRows [] rows) k = lastTagInFileOrder rows k ∧
    nodupKeys (loadRows [] rows) := by
  constructor
  · rw [dictGet_loadRows]
    cases lastTagInFileOrder rows k <;> rfl
  · exact nodupKeys_loadRows rows [] (by simp [nodupKeys, keysOf])

/-- C9: loading the same lookup file twice, the second load starting from
the mapping produced by the first, yields the very same mapping as a single
load (idempotence). -/
theorem c9_load_idempotent (lt : List ((String × String) × String))
    (rows : List (List String)) (T : List ((String × String) × String))
    (hnd : nodupKeys lt) (h : load_lookup_table lt rows = .ok T) :
    load_lookup_table T rows = .ok T := by
  cases rows with
  | nil => simp [load_lookup_table] at h
  | cons header dataRows =>
    simp only [load_lookup_table, Except.ok.injEq] at h ⊢
    subst h
    refine dict_ext _ _ (nodupKeys_loadRows dataRows _ (nodupKeys_loadRows dataRows lt hnd))
      (nodupKeys_loadRows dataRows lt hnd)
      (keysOf_loadRows_of_covered dataRows _
        (fun k hk => rowKeys_mem_keysOf_loadRows dataRows lt k hk)) ?_
    intro k
    rw [dictGet_loadRows, dictGet_loadRows]
    cases lastTagInFileOrder dataRows k <;> rfl

/-- Witness for C9: reloading a concrete two-row table over its own result
reproduces it exactly. -/
theorem c9_load_idempotent_witness :
    load_lookup_table [(("80", "tcp"), "web"), (("23", "tcp"), "telnet")]
        [["dstport", "protocol", "tag"], ["80", "TCP", "web"], ["23", "tcp", "telnet"]] =
      .ok [(("80", "tcp"), "web"), (("23", "tcp"), "telnet")] :=
  c9_load_idempotent []
    [["dstport", "protocol", "tag"], ["80", "TCP", "web"], ["23", "tcp", "telnet"]]
    [(("80", "tcp"), "web"), (("23", "tcp"), "telnet")] (by simp [nodupKeys, keysOf]) rfl

/-- C10: on a lookup file with zero rows the unconditional header skip
(`next(reader)`) raises `StopIteration`, an exception caught by none of the
loader's handlers and outside the NotFound / PermissionDenied /
MalformedInput taxonomy, so the whole run aborts (exit code 1) with the
error propagating out of `run_analysis`. -/
theorem c10_empty_lookup_aborts (lt : List ((String × String) × String))
    (logLines : List String) :
    load_lookup_table lt [] = .error .stopIteration ∧
    loaderCatches .stopIteration = false ∧
    inTaxonomy .stopIteration = false ∧
    run_analysis [] logLines = .error .stopIteration ∧
    mainExitCode [] logLines = 1 :=
  ⟨rfl, rfl, rfl, rfl, rfl⟩

/-! ## Processor claims -/

/-- The protocol name the claims describe: the static table `6→"tcp"`,
`17→"udp"`, `1→"icmp"`, falling back to the raw lowercased field for any
other number. -/
def protoNameOf (n : Int) (raw : String) : String :=
  if n = 6 then "tcp"
  else if n = 17 then "udp"
  else if n = 1 then "icmp"
  else pyLower raw

/-- C2: any line whose whitespace split yields fewer than 14 fields, or
whose second-to-last field is not exactly "ACCEPT", or whose last field is
not exactly "OK", is rejected: `_process_line` returns `None` leaving both
aggregates (the whole analyzer state) unchanged, and the line contributes
nothing to a processing run (it is not counted). -/
theorem c2_rejected_line_is_noop (st : AnalyzerState) (line : String)
    (h : (pySplit line).length < 14 ∨
      (pySplit line).getD ((pySplit line).length - 2) "" ≠ "ACCEPT" ∨
      (pySplit line).getD ((pySplit line).length - 1) "" ≠ "OK") :
    process_line st line = (.skipped, st) ∧
    ∀ rest, process_flow_logs st (line :: rest) = process_flow_logs st rest := by
  have hpl : process_line st line = (.skipped, st) := by
    simp only [process_line]
    rw [if_pos h]
  exact ⟨hpl, fun rest => by simp only [process_flow_logs, hpl]⟩

/-- Witness for C2: a line with status `FAIL` instead of `OK` is skipped and
the state is untouched. -/
theorem c2_rejected_line_is_noop_witness :
    process_line initState "a b c d e f 80 6 g h i j ACCEPT FAIL" = (.skipped, initState) :=
  (c2_rejected_line_is_noop initState "a b c d e f 80 6 g h i j ACCEPT FAIL"
    (by decide)).1

theorem accept_not_rejected (line : String)
    (hlen : 14 ≤ (pySplit line).length)
    (hact : (pySplit line).getD ((pySplit line).length - 2) "" = "ACCEPT")
    (hok : (pySplit line).getD ((pySplit line).length - 1) "" = "OK") :
    ¬ ((pySplit line).length < 14 ∨
      (pySplit line).getD ((pySplit line).length - 2) "" ≠ "ACCEPT" ∨
      (pySplit line).getD ((pySplit line).length - 1) "" ≠ "OK") := by
  push_neg
  exact ⟨by omega, hact, hok⟩

theorem process_line_accepted (st : AnalyzerState) (line : String) (n : Int)
    (hlen : 14 ≤ (pySplit line).length)
    (hact : (pySplit line).getD ((pySplit line).length - 2) "" = "ACCEPT")
    (hok : (pySplit line).getD ((pySplit line).length - 1) "" = "OK")
    (hn : pyInt? ((pySplit line).getD 7 "") = some n) :
    process_line st line =
      (.counted ((pySplit line).getD 6 "") (protoNameOf n ((pySplit line).getD 7 ""))
        (resolvedTag (dictGet st.lookup_table
          ((pySplit line).getD 6 "", protoNameOf n ((pySplit line).getD 7 "")))),
       { st with
          tag_counts :=
            dictSet st.tag_counts
              (resolvedTag (dictGet st.lookup_table
                ((pySplit line).getD 6 "", protoNameOf n ((pySplit line).getD 7 ""))))
              (dictGetD st.tag_counts
                (resolvedTag (dictGet st.lookup_table
                  ((pySplit line).getD 6 "", protoNameOf n ((pySplit line).getD 7 "")))) 0 + 1),
          port_protocol_counts :=
            dictSet st.port_protocol_counts
              ((pySplit line).getD 6 "", protoNameOf n ((pySplit line).getD 7 ""))
              (dictGetD st.port_protocol_counts
                ((pySplit line).getD 6 "", protoNameOf n ((pySplit line).getD 7 "")) 0 + 1) }) := by
  have hproto : (match PROTOCOL_MAP n with
      | none => pyLower ((pySplit line).getD 7 "")
      | some p => pyLower p) = protoNameOf n ((pySplit line).getD 7 "") := by
    unfold PROTOCOL_MAP protoNameOf
    by_cases h6 : n = 6
    · simp only [if_pos h6]; rfl
    · by_cases h17 : n = 17
      · simp only [if_neg h6, if_pos h17]; rfl
      · by_cases h1 : n = 1
        · simp only [if_neg h6, if_neg h17, if_pos h1]; rfl
        · simp only [if_neg h6, if_neg h17, if_neg h1]
  simp only [process_line]
  rw [if_neg (accept_not_rejected line hlen hact hok), hn]
  simp only [hproto]
  split
  · rfl
  · rename_i htr
    rw [resolvedTag_of_not_truthy _ (by simpa using htr)]

/-- C3: on every accepted line the protocol name is resolved from the
integer value of field 7 by the static table `6→"tcp"`, `17→"udp"`,
`1→"icmp"`; any other integer falls back to the raw field-7 string
lowercased, and the line still aggregates normally: the
`port_protocol_counts` entry at `(dstport, resolved name)` is incremented. -/
theorem c3_protocol_resolution (st : AnalyzerState) (line : String) (n : Int)
    (hlen : 14 ≤ (pySplit line).length)
    (hact : (pySplit line).getD ((pySplit line).length - 2) "" = "ACCEPT")
    (hok : (pySplit line).getD ((pySplit line).length - 1) "" = "OK")
    (hn : pyInt? ((pySplit line).getD 7 "") = some n) :
    (process_line st line).1 =
      .counted ((pySplit line).getD 6 "") (protoNameOf n ((pySplit line).getD 7 ""))
        (resolvedTag (dictGet st.lookup_table
          ((pySplit line).getD 6 "", protoNameOf n ((pySplit line).getD 7 "")))) ∧
    (process_line st line).2.port_protocol_counts =
      dictSet st.port_protocol_counts
        ((pySplit line).getD 6 "", protoNameOf n ((pySplit line).getD 7 ""))
        (dictGetD st.port_protocol_counts
          ((pySplit line).getD 6 "", protoNameOf n ((pySplit line).getD 7 "")) 0 + 1) := by
  rw [process_line_accepted st line n hlen hact hok hn]
  exact ⟨rfl, rfl⟩

/-- Witness for C3: protocol number 47 is outside the static table, so the
accepted line aggregates under the raw numeric string "47". -/
theorem c3_protocol_resolution_witness :
    (process_line initState "a b c d e f 9999 47 g h i j ACCEPT OK").1 =
      .counted "9999" "47" "Untagged" ∧
    (process_line initState "a b c d e f 9999 47 g h i j ACCEPT OK").2.port_protocol_counts =
      [(("9999", "47"), 1)] :=
  c3_protocol_resolution initState "a b c d e f 9999 47 g h i j ACCEPT OK" 47
    (by decide) (by decide) (by decide) (by decide)

/-- C5: a line that passes the acceptance filter but whose field 7 is not
parseable as an integer makes `_process_line` raise (here: `fatal`), the
whole processing run aborts with that `ValueError`, and neither the
processor's nor the loader's handlers catch a `ValueError`. -/
theorem c5_unparsable_protocol_is_fatal (st : AnalyzerState) (line : String)
    (rest : List String)
    (hlen : 14 ≤ (pySplit line).length)
    (hact : (pySplit line).getD ((pySplit line).length - 2) "" = "ACCEPT")
    (hok : (pySplit line).getD ((pySplit line).length - 1) "" = "OK")
    (hfail : pyInt? ((pySplit line).getD 7 "") = none) :
    process_line st line = (.fatal, st) ∧
    process_flow_logs st (line :: rest) = .error .valueError ∧
    processorCatches .valueError = false ∧
    loaderCatches .valueError = false := by
  have hpl : process_line st line = (.fatal, st) := by
    simp only [process_line]
    rw [if_neg (accept_not_rejected line hlen hact hok), hfail]
  exact ⟨hpl, by simp only [process_flow_logs, hpl], rfl, rfl⟩

/-- Witness for C5: an otherwise accepted line with protocol field `"xyz"`
aborts the run with `ValueError`. -/
theorem c5_unparsable_protocol_is_fatal_witness :
    process_flow_logs initState ["a b c d e f 80 xyz g h i j ACCEPT OK"] =
      .error .valueError :=
  (c5_unparsable_protocol_is_fatal initState "a b c d e f 80 xyz g h i j ACCEPT OK" []
    (by decide) (by decide) (by decide) (by decide)).2.1

/-- Counterexample to C4 as stated: a lookup table can hold an entry whose
tag is the empty string (a CSV row like `80,tcp,`).  On an accepted matching
line the key is present in the mapping, yet its tag is NOT used: Python's
`if tag:` treats the empty tag as falsy, so the line is counted as
"Untagged" and `tag_counts` gains no entry for `""`. -/
theorem c4_counterexample :
    dictGet [((("80" : String), ("tcp" : String)), ("" : String))] ("80", "tcp") = some "" ∧
    process_line { initState with lookup_table := [(("80", "tcp"), "")] }
        "a b c d e f 80 6 g h i j ACCEPT OK" =
      (.counted "80" "tcp" "Untagged",
       { lookup_table := [(("80", "tcp"), "")], tag_counts := [("Untagged", 1)],
         port_protocol_counts := [(("80", "tcp"), 1)] }) ∧
    dictGet [(("Untagged" : String), (1 : Nat))] "" = none := by
  refine ⟨rfl, by decide, rfl⟩

/-- C4 (amended): on every accepted line the tag is found by looking up
`(dstport, resolved_protocol)` — the dstport field exactly as it appears in
the log, not lowercased at match time, while the loader stored keys
lowercased.  If the key is present *with a non-empty tag*, that tag is used
and its `tag_counts` entry is incremented; otherwise — key absent, or
present with an empty tag — the sentinel "Untagged" is used and
`tag_counts["Untagged"]` is incremented. -/
theorem c4_amended_lookup_and_tagging (st : AnalyzerState) (line : String) (n : Int)
    (hlen : 14 ≤ (pySplit line).length)
    (hact : (pySplit line).getD ((pySplit line).length - 2) "" = "ACCEPT")
    (hok : (pySplit line).getD ((pySplit line).length - 1) "" = "OK")
    (hn : pyInt? ((pySplit line).getD 7 "") = some n) :
    (∀ t, dictGet st.lookup_table
        ((pySplit line).getD 6 "", protoNameOf n ((pySplit line).getD 7 "")) = some t →
      t ≠ "" →
      (process_line st line).1 =
        .counted ((pySplit line).getD 6 "") (protoNameOf n ((pySplit line).getD 7 "")) t ∧
      (process_line st line).2.tag_counts =
        dictSet st.tag_counts t (dictGetD st.tag_counts t 0 + 1)) ∧
    (dictGet st.lookup_table
        ((pySplit line).getD 6 "", protoNameOf n ((pySplit line).getD 7 "")) = none ∨
     dictGet st.lookup_table
        ((pySplit line).getD 6 "", protoNameOf n ((pySplit line).getD 7 "")) = some "" →
      (process_line st line).1 =
        .counted ((pySplit line).getD 6 "") (protoNameOf n ((pySplit line).getD 7 ""))
          "Untagged" ∧
      (process_line st line).2.tag_counts =
        dictSet st.tag_counts "Untagged" (dictGetD st.tag_counts "Untagged" 0 + 1)) := by
  rw [process_line_accepted st line n hlen hact hok hn]
  constructor
  · intro t hget hne
    rw [hget]
    simp [resolvedTag, if_neg hne]
  · rintro (hget | hget) <;> rw [hget] <;> exact ⟨rfl, rfl⟩

/-- Witness for C4 (amended): concrete port 9999 with no lookup match is
counted as "Untagged". -/
theorem c4_amended_lookup_and_tagging_witness :
    (process_line { initState with lookup_table := [(("80", "tcp"), "web")] }
        "a b c d e f 9999 6 g h i j ACCEPT OK").1 = .counted "9999" "tcp" "Untagged" ∧
    (process_line { initState with lookup_table := [(("80", "tcp"), "web")] }
        "a b c d e f 9999 6 g h i j ACCEPT OK").2.tag_counts = [("Untagged", 1)] :=
  (c4_amended_lookup_and_tagging { initState with lookup_table := [(("80", "tcp"), "web")] }
    "a b c d e f 9999 6 g h i j ACCEPT OK" 6
    (by decide) (by decide) (by decide) (by decide)).2 (Or.inl (by decide))

/-! ## Report format and insertion order (C8) -/

/-- The classification of a line as a function of the lookup table alone;
the aggregates never influence which key or tag a line produces. -/
def lineOutcome (lt : List ((String × String) × String)) (line : String) : LineResult :=
  let fields := pySplit line
  if fields.length < 14 ∨ fields.getD (fields.length - 2) "" ≠ "ACCEPT" ∨
      fields.getD (fields.length - 1) "" ≠ "OK" then
    .skipped
  else
    match pyInt? (fields.getD 7 "") with
    | none => .fatal
    | some n =>
      let protocol :=
        match PROTOCOL_MAP n with
        | none => pyLower (fields.getD 7 "")
        | some p => pyLower p
      .counted (fields.getD 6 "") protocol
        (resolvedTag (dictGet lt (fields.getD 6 "", protocol)))

theorem process_line_fst (st : AnalyzerState) (line : String) :
    (process_line st line).1 = lineOutcome st.lookup_table line := by
  simp only [process_line, lineOutcome]
  by_cases hrej : (pySplit line).length < 14 ∨
      (pySplit line).getD ((pySplit line).length - 2) "" ≠ "ACCEPT" ∨
      (pySplit line).getD ((pySplit line).length - 1) "" ≠ "OK"
  · rw [if_pos hrej, if_pos hrej]
  · rw [if_neg hrej, if_neg hrej]
    cases hint : pyInt? ((pySplit line).getD 7 "") <;> rfl

/-- The `(dstport, protocol)` keys of the counted lines, in line order. -/
def countedKeys (lt : List ((String × String) × String)) (lines : List String) :
    List (String × String) :=
  lines.filterMap fun line =>
    match lineOutcome lt line with
    | .counted p pr _ => some (p, pr)
    | _ => none

/-- The tags of the counted lines, in line order. -/
def countedTags (lt : List ((String × String) × String)) (lines : List String) :
    List String :=
  lines.filterMap fun line =>
    match lineOutcome lt line with
    | .counted _ _ t => some t
    | _ => none

/-- First-seen (insertion) order of a stream of keys: each key is appended
the first time it occurs and ignored afterwards. -/
def firstSeenOrder [DecidableEq α] (seen : List α) (ks : List α) : List α :=
  ks.foldl insertNew seen

theorem countedTags_cons_skipped (lt : List ((String × String) × String)) (line : String)
    (rest : List String) (h : lineOutcome lt line = .skipped) :
    countedTags lt (line :: rest) = countedTags lt rest := by
  simp [countedTags, List.filterMap_cons, h]

theorem countedTags_cons_counted (lt : List ((String × String) × String)) (line : String)
    (rest : List String) (p pr t : String) (h : lineOutcome lt line = .counted p pr t) :
    countedTags lt (line :: rest) = t :: countedTags lt rest := by
  simp [countedTags, List.filterMap_cons, h]

theorem countedKeys_cons_skipped (lt : List ((String × String) × String)) (line : String)
    (rest : List String) (h : lineOutcome lt line = .skipped) :
    countedKeys lt (line :: rest) = countedKeys lt rest := by
  simp [countedKeys, List.filterMap_cons, h]

theorem countedKeys_cons_counted (lt : List ((String × String) × String)) (line : String)
    (rest : List String) (p pr t : String) (h : lineOutcome lt line = .counted p pr t) :
    countedKeys lt (line :: rest) = (p, pr) :: countedKeys lt rest := by
  simp [countedKeys, List.filterMap_cons, h]

theorem keysOf_process_flow_logs (lines : List String) : ∀ (st : AnalyzerState) (n : Nat)
    (st' : AnalyzerState), process_flow_logs st lines = .ok (n, st') →
    st'.lookup_table = st.lookup_table ∧
    keysOf st'.tag_counts =
      firstSeenOrder (keysOf st.tag_counts) (countedTags st.lookup_table lines) ∧
    keysOf st'.port_protocol_counts =
      firstSeenOrder (keysOf st.port_protocol_counts) (countedKeys st.lookup_table lines) := by
  induction lines with
  | nil =>
    intro st n st' h
    simp only [process_flow_logs, Except.ok.injEq, Prod.mk.injEq] at h
    obtain ⟨rfl, rfl⟩ := h
    exact ⟨rfl, rfl, rfl⟩
  | cons line rest ih =>
    intro st n st' h
    simp only [process_flow_logs] at h
    split at h
    · simp at h
    · rename_i st1 hpl
      have hst1 : st1 = st :=
        process_line_not_counted st line _ st1 hpl (fun p pr t hcon => nomatch hcon)
      rw [hst1] at h
      have hout : lineOutcome st.lookup_table line = .skipped := by
        rw [← process_line_fst st line, hpl]
      rw [countedTags_cons_skipped st.lookup_table line rest hout,
        countedKeys_cons_skipped st.lookup_table line rest hout]
      exact ih st n st' h
    · rename_i p pr t st1 hpl
      split at h
      · simp at h
      · rename_i m st2 hrest
        simp only [Except.ok.injEq, Prod.mk.injEq] at h
        obtain ⟨hn, hst⟩ := h
        have hout : lineOutcome st.lookup_table line = .counted p pr t := by
          rw [← process_line_fst st line, hpl]
        obtain ⟨hlt, htc, hpc⟩ := process_line_counted st line p pr t st1 hpl
        obtain ⟨ihlt, ihtc, ihpc⟩ := ih st1 m st2 hrest
        rw [countedTags_cons_counted st.lookup_table line rest p pr t hout,
          countedKeys_cons_counted st.lookup_table line rest p pr t hout]
        rw [← hst]
        refine ⟨by rw [ihlt, hlt], ?_, ?_⟩
        · rw [ihtc, hlt, htc, keysOf_dictSet]
          rfl
        · rw [ihpc, hlt, hpc, keysOf_dictSet]
          rfl

/-- The report's lines, exactly as the spec's §4.3 block draws them: the
"Tag Counts:" line, the "Tag,Count" header, one `tag,count` line per
`tag_counts` entry in stored order, a blank line, the
"Port/Protocol Combination Counts:" line, the "Port,Protocol,Count" header,
and one `port,protocol,count` line per `port_protocol_counts` entry in
stored order. -/
def reportLines (tag_counts : List (String × Nat))
    (port_protocol_counts : List ((String × String) × Nat)) : List String :=
  ["Tag Counts:", "Tag,Count"] ++
    tag_counts.map (fun p => p.1 ++ "," ++ toString p.2) ++
    [""] ++ ["Port/Protocol Combination Counts:", "Port,Protocol,Count"] ++
    port_protocol_counts.map (fun p => p.1.1 ++ "," ++ p.1.2 ++ "," ++ toString p.2)

/-- The report text the spec describes: every report line, each terminated
by a newline. -/
def specReport (tag_counts : List (String × Nat))
    (port_protocol_counts : List ((String × String) × Nat)) : String :=
  concatAll ((reportLines tag_counts port_protocol_counts).map (fun s => s ++ "\n"))

theorem concatAll_append (a b : List String) :
    concatAll (a ++ b) = concatAll a ++ concatAll b := by
  induction a with
  | nil => simp [concatAll]
  | cons s rest ih => simp [concatAll, ih, String.append_assoc]

theorem write_output_eq_specReport (tag_counts : List (String × Nat))
    (port_protocol_counts : List ((String × String) × Nat)) :
    write_output tag_counts port_protocol_counts =
      specReport tag_counts port_protocol_counts := by
  have hT : (fun s => s ++ "\n") ∘ (fun (p : String × Nat) => p.1 ++ "," ++ toString p.2) =
      fun (p : String × Nat) => p.1 ++ "," ++ toString p.2 ++ "\n" := by
    funext p
    simp [Function.comp, String.append_assoc]
  have hP : (fun s => s ++ "\n") ∘
      (fun (p : (String × String) × Nat) => p.1.1 ++ "," ++ p.1.2 ++ "," ++ toString p.2) =
      fun (p : (String × String) × Nat) =>
        p.1.1 ++ "," ++ p.1.2 ++ "," ++ toString p.2 ++ "\n" := by
    funext p
    simp [Function.comp, String.append_assoc]
  unfold specReport reportLines
  rw [List.map_append, List.map_append, List.map_append, List.map_append,
    List.map_map, List.map_map, hT, hP,
    concatAll_append, concatAll_append, concatAll_append, concatAll_append]
  have e₁ : concatAll (List.map (fun s => s ++ "\n") ["Tag Counts:", "Tag,Count"]) =
      "Tag Counts:\n" ++ "Tag,Count\n" := by decide
  have e₂ : concatAll (List.map (fun s => s ++ "\n") [""]) = "\n" := by decide
  have e₃ : concatAll (List.map (fun s => s ++ "\n")
      ["Port/Protocol Combination Counts:", "Port,Protocol,Count"]) =
      "Port/Protocol Combination Counts:\n" ++ "Port,Protocol,Count\n" := by decide
  rw [e₁, e₂, e₃]
  have e₄ : ("\nPort/Protocol Combination Counts:\n" : String) =
      "\n" ++ "Port/Protocol Combination Counts:\n" := by decide
  unfold write_output
  rw [e₄]
  simp [String.append_assoc]

/-- C8: after a completed run from a fresh analyzer, the report writer
produces exactly the spec's layout — the "Tag Counts:" line, the "Tag,Count"
header, one `tag,count` line per entry, a blank line, the
"Port/Protocol Combination Counts:" line, the "Port,Protocol,Count" header,
and one `port,protocol,count` line per entry — and within each section the
rows appear in the order their keys were first inserted into the aggregate
(first-seen order over the counted lines).  The pipeline is a pure function
of the two input files, so identical inputs in the same order reproduce the
output byte for byte. -/
theorem c8_report_format_and_order (table : List ((String × String) × String))
    (lines : List String) (n : Nat) (st' : AnalyzerState)
    (h : process_flow_logs { initState with lookup_table := table } lines = .ok (n, st')) :
    write_output st'.tag_counts st'.port_protocol_counts =
      concatAll ((reportLines st'.tag_counts st'.port_protocol_counts).map
        (fun s => s ++ "\n")) ∧
    keysOf st'.tag_counts = firstSeenOrder [] (countedTags table lines) ∧
    keysOf st'.port_protocol_counts = firstSeenOrder [] (countedKeys table lines) := by
  obtain ⟨hlt, htc, hpc⟩ := keysOf_process_flow_logs lines _ n st' h
  exact ⟨write_output_eq_specReport st'.tag_counts st'.port_protocol_counts, htc, hpc⟩

/-- Witness for C8: a concrete three-line run (two distinct keys, one
repeat) yields the exact report text with rows in first-seen order. -/
theorem c8_report_format_and_order_witness :
    write_output [("web", 2), ("Untagged", 1)] [(("80", "tcp"), 2), (("9999", "47"), 1)] =
      concatAll ((reportLines [("web", 2), ("Untagged", 1)]
        [(("80", "tcp"), 2), (("9999", "47"), 1)]).map (fun s => s ++ "\n")) ∧
    keysOf [(("web" : String), (2 : Nat)), ("Untagged", 1)] =
      firstSeenOrder [] (countedTags [(("80", "tcp"), "web")]
        ["a b c d e f 80 6 g h i j ACCEPT OK", "a b c d e f 9999 47 g h i j ACCEPT OK",
         "a b c d e f 80 6 g h i j ACCEPT OK"]) ∧
    keysOf [((("80" : String), ("tcp" : String)), (2 : Nat)), (("9999", "47"), 1)] =
      firstSeenOrder [] (countedKeys [(("80", "tcp"), "web")]
        ["a b c d e f 80 6 g h i j ACCEPT OK", "a b c d e f 9999 47 g h i j ACCEPT OK",
         "a b c d e f 80 6 g h i j ACCEPT OK"]) :=
  c8_report_format_and_order [(("80", "tcp"), "web")]
    ["a b c d e f 80 6 g h i j ACCEPT OK", "a b c d e f 9999 47 g h i j ACCEPT OK",
     "a b c d e f 80 6 g h i j ACCEPT OK"] 3
    { lookup_table := [(("80", "tcp"), "web")],
      tag_counts := [("web", 2), ("Untagged", 1)],
      port_protocol_counts := [(("80", "tcp"), 2), (("9999", "47"), 1)] }
    rfl

end FlowLog
